import Mathlib

/-!
Verification of the Neural_Network_Simulator core (layer.py, neural_network.py)
through a shallow embedding in Lean 4.

Numbers are modelled as rationals (numpy floats carry exact decimal inputs in
all the scenarios the claims quantify over; the algebraic identities at stake
are exact). Matrices are lists of rows (`List (List ℚ)`), matching numpy's
2-d arrays; rectangularity is a hypothesis where numpy would enforce it by
construction. Stateful Python methods become functions returning the updated
object; a method that can raise returns the pair of the object state at the
moment of the raise and an `Except` value, mirroring the fact that a Python
exception propagates while leaving the object with exactly the mutations
performed before the `raise` statement.
-/

namespace NNSim

abbrev Mat := List (List ℚ)

/-- Number of columns of a matrix: length of its first row (numpy `shape[1]`
for a rectangular non-empty array). -/
def cols (m : Mat) : ℕ := (m.headD []).length

/-- Entry `m[i][j]`, with 0 outside the bounds. -/
def entry (m : Mat) (i j : ℕ) : ℚ := ((m.getD i []).getD j 0)

/-- Dot product of two lists (summing over the common length). -/
def dot (xs ys : List ℚ) : ℚ := ((xs.zip ys).map (fun p => p.1 * p.2)).sum

/-- Column `j` of a matrix. -/
def colOf (m : Mat) (j : ℕ) : List ℚ := m.map (fun row => row.getD j 0)

/-- `np.transpose` on a rectangular matrix. -/
def transposeM (m : Mat) : Mat := (List.range (cols m)).map (fun j => colOf m j)

/-- `np.matmul` on rectangular matrices: row i of the result is the vector of
dot products of row i of `A` with the columns of `B`. -/
def matMul (A B : Mat) : Mat :=
  A.map (fun r => (List.range (cols B)).map (fun j => dot r (colOf B j)))

/-- Elementwise product (`np.multiply` / `*` on same-shape arrays). -/
def elemMul (A B : Mat) : Mat := List.zipWith (List.zipWith (· * ·)) A B

/-- Elementwise sum of two same-shape matrices. -/
def addMat (A B : Mat) : Mat := List.zipWith (List.zipWith (· + ·)) A B

/-- `np.einsum('i,j', e, x)`: the outer product `e ⊗ x`. -/
def outer (e x : List ℚ) : Mat := e.map (fun a => x.map (fun b => a * b))

/-- `np.sum(listOfMatrices, axis=0)` for a non-empty list of same-shape
matrices: their elementwise sum. -/
def sumMats : List Mat → Mat
  | [] => []
  | [m] => m
  | m :: m' :: ms => addMat m (sumMats (m' :: ms))

/-- Matrix of zeros with the shape of `m` (`np.zeros(m.shape)`). -/
def zerosLike (m : Mat) : Mat := m.map (fun row => row.map (fun _ => (0 : ℚ)))

/-- Elementwise application of a scalar function (numpy ufunc on a 2-d array). -/
def mapMat (f : ℚ → ℚ) (m : Mat) : Mat := m.map (fun row => row.map f)

/-! ## Layer (layer.py)

The learning-rate schedule lives in a module that is not part of the sources
(`learning_rate.py`); per the spec it is a stateful per-weight schedule
exposing a value matrix and an `update(epoch)` mutator.  The layer is
therefore polymorphic in the schedule's state type `R`, and the operations
that advance the schedule take the `update` mutator as a parameter. -/

structure Layer (R : Type) where
  weights : Mat
  transposedWeights : Mat
  learning_rates : R
  activation_output : ℚ → ℚ
  activation_derivative : ℚ → ℚ
  num_unit : ℕ
  num_input : ℕ
  net : Mat
  errors : Mat
  inputs : Mat
  old_delta_w : Mat
  current_delta_w : Mat

/-- `Layer.__init__` (the parameter-validation checks are outside the claims;
`net`/`inputs` start as the scalar placeholder 0 and `errors` as an
uninitialised vector, all overwritten before first use — modelled as `[]`). -/
def Layer.init (weights : Mat) (learning_rates : R) (actOut actDeriv : ℚ → ℚ) :
    Layer R :=
  { weights := weights
    transposedWeights := transposeM weights
    learning_rates := learning_rates
    activation_output := actOut
    activation_derivative := actDeriv
    num_unit := weights.length
    num_input := cols weights - 1
    net := []
    errors := []
    inputs := []
    old_delta_w := zerosLike weights
    current_delta_w := zerosLike weights }

/-- `Layer.update_learning_rate(epoch)`: `self.learning_rates.update(epoch)`.
Modelled from the spec: the `LearningRate.update` mutator is passed in as
`upd` since `learning_rate.py` is not among the sources. -/
def Layer.update_learning_rate (upd : R → ℕ → R) (l : Layer R) (epoch : ℕ) :
    Layer R :=
  { l with learning_rates := upd l.learning_rates epoch }

/-- `Layer.function_signal(input_values)`: raises `ValueError` when the column
count of the input differs from `num_input` (before any mutation); otherwise
prepends the bias column of ones, stores the augmented matrix as `inputs`,
stores `net = inputs × transposedWeights`, and returns
`activation.output(net)`. -/
def Layer.function_signal (l : Layer R) (input_values : Mat) :
    Layer R × Except Unit Mat :=
  if cols input_values ≠ l.num_input then
    (l, Except.error ())
  else
    let input' := input_values.map (fun r => 1 :: r)
    let net := matMul input' l.transposedWeights
    ({ l with inputs := input', net := net },
      Except.ok (mapMat l.activation_output net))

/-- `OutputLayer.error_signal(targets, outputs, loss)`. The loss lives in
`loss.py`, not among the sources; per the spec it is a pure function pair, so
its `derivative` is passed in as `lossDeriv`. -/
def OutputLayer.error_signal (l : Layer R) (targets outputs : Mat)
    (lossDeriv : Mat → Mat → Mat) : Layer R :=
  let difference := lossDeriv outputs targets
  let errors := elemMul (mapMat l.activation_derivative l.net) difference
  { l with
    errors := errors
    current_delta_w :=
      sumMats ((errors.zip l.inputs).map (fun p => outer p.1 p.2)) }

/-- `HiddenLayer.error_signal(downStreamErrors, downStreamWeights)`:
`errors = activation.derivative(net) * (downStreamErrors @ downStreamWeights[0:, 1:])`;
the slice `[0:, 1:]` drops the bias column of the downstream weights. -/
def HiddenLayer.error_signal (l : Layer R)
    (downStreamErrors downStreamWeights : Mat) : Layer R :=
  let errors := elemMul (mapMat l.activation_derivative l.net)
      (matMul downStreamErrors (downStreamWeights.map (fun r => r.drop 1)))
  { l with
    errors := errors
    current_delta_w :=
      sumMats ((errors.zip l.inputs).map (fun p => outer p.1 p.2)) }

/-! ## NeuralNetwork (neural_network.py) -/

/-- A training sample: `(input vector, target vector)`. -/
abbrev Sample := List ℚ × List ℚ

structure NN (R : Type) where
  max_epochs : ℕ
  input_dimension : ℕ
  output_dimension : ℕ
  optimizer : String
  batch_size : ℕ
  layers : List (Layer R)
  momentum_rate : ℚ
  regularization_rate : ℚ
  metric : String
  loss : String
  topology : List ℕ

/-- Modelled from the spec: `optimizer.py` is not among the sources; its
name→constructor table `optimizer_implemented` contains the optimizer kinds
the repository uses, `"SGD"` and `"batch"`. -/
def optimizer_implemented : List String := ["SGD", "batch"]

/-- Modelled from the spec: `loss.py` is not among the sources; its lookup
table `loss_functions` contains the loss names the repository uses. -/
def loss_functions : List String := ["euclidean_loss", "mean_squared_error"]

/-- Modelled from the spec: `metric.py` is not among the sources; its lookup
table `metric_functions` contains the metric names the repository uses. -/
def metric_functions : List String := ["euclidean_loss", "classification_accuracy"]

/-- `NeuralNetwork.check_max_epochs`: `max_epochs` if positive, otherwise
raises `InvalidNeuralNetwork`. -/
def check_max_epochs (max_epochs : ℤ) : Except Unit ℤ :=
  if max_epochs > 0 then Except.ok max_epochs else Except.error ()

/-- `NeuralNetwork.check_optimizer`. -/
def check_optimizer (optimizer : String) : Except Unit String :=
  if optimizer ∈ optimizer_implemented then Except.ok optimizer
  else Except.error ()

/-- `NeuralNetwork.check_batch_size` (the optimizer has already been stored
when it runs). -/
def check_batch_size (optimizer : String) (batch_size : ℤ) : Except Unit ℤ :=
  if optimizer = "SGD" ∧ batch_size = 1 then Except.ok batch_size
  else if batch_size > 0 then Except.ok batch_size
  else Except.error ()

/-- `NeuralNetwork.check_momentum`. -/
def check_momentum (momentum_rate : ℚ) : Except Unit ℚ :=
  if momentum_rate ≥ 0 then Except.ok momentum_rate else Except.error ()

/-- `NeuralNetwork.check_regularization`. -/
def check_regularization (regularization_rate : ℚ) : Except Unit ℚ :=
  if regularization_rate ≥ 0 then Except.ok regularization_rate
  else Except.error ()

/-- `NeuralNetwork.check_metric` (the empty string selects no metric). -/
def check_metric (metric : String) : Except Unit String :=
  if metric ∈ metric_functions ∨ metric = "" then Except.ok metric
  else Except.error ()

/-- `NeuralNetwork.check_loss`. -/
def check_loss (loss : String) : Except Unit String :=
  if loss ∈ loss_functions then Except.ok loss else Except.error ()

/-- `NeuralNetwork.__init__`, with the checks run in source order
(`max_epochs`, then `optimizer`, `batch_size`, `momentum`, `regularization`,
`metric`, `loss`); the first failing check raises, and only when all pass is
the object produced, with an empty layer list. -/
def NN.init (R : Type) (max_epochs : ℤ) (optimizer loss metric : String)
    (momentum_rate regularization_rate : ℚ) (batch_size : ℤ) :
    Except Unit (NN R) := do
  let me ← check_max_epochs max_epochs
  let opt ← check_optimizer optimizer
  let bs ← check_batch_size opt batch_size
  let mom ← check_momentum momentum_rate
  let reg ← check_regularization regularization_rate
  let met ← check_metric metric
  let lo ← check_loss loss
  Except.ok
    { max_epochs := me.toNat
      input_dimension := 0
      output_dimension := 0
      optimizer := opt
      batch_size := bs.toNat
      layers := []
      momentum_rate := mom
      regularization_rate := reg
      metric := met
      loss := lo
      topology := [] }

/-- `NeuralNetwork.add_layer(layer)`: for an empty network the layer seeds
`input_dimension` (and the topology); for a non-empty network a layer whose
`num_input` differs from `output_dimension` raises `ValueError` before any
mutation. On success the layer is appended and `output_dimension` updated. -/
def NN.add_layer (nn : NN R) (layer : Layer R) : NN R × Except Unit Unit :=
  if nn.layers.length = 0 then
    let nn := { nn with
      input_dimension := layer.num_input
      topology := nn.topology ++ [layer.num_input] }
    ({ nn with
        topology := nn.topology ++ [layer.num_unit]
        output_dimension := layer.num_unit
        layers := nn.layers ++ [layer] }, Except.ok ())
  else if layer.num_input ≠ nn.output_dimension then
    (nn, Except.error ())
  else
    ({ nn with
        topology := nn.topology ++ [layer.num_unit]
        output_dimension := layer.num_unit
        layers := nn.layers ++ [layer] }, Except.ok ())

/-- The `for layer in self.layers` loop of `_feedward_signal`: each layer's
`function_signal` output feeds the next layer; an exception propagates,
leaving the earlier layers with their updated caches. -/
def forwardLayers : List (Layer R) → Mat → List (Layer R) × Except Unit Mat
  | [], input => ([], Except.ok input)
  | l :: rest, input =>
    match l.function_signal input with
    | (l', Except.error e) => (l' :: rest, Except.error e)
    | (l', Except.ok out) =>
      let (rest', res) := forwardLayers rest out
      (l' :: rest', res)

/-- The body of `_feedward_signal` acting on a layer list: raises
`ValueError` when the input's column count differs from the network's
`input_dimension` (before touching any layer); with no layers the final
`return output_layer` raises (`output_layer` is unbound); otherwise
propagates through the layers. -/
def predictOnLayers (dim : ℕ) (ls : List (Layer R)) (input : Mat) :
    List (Layer R) × Except Unit Mat :=
  if cols input ≠ dim then (ls, Except.error ())
  else if ls.length = 0 then (ls, Except.error ())
  else forwardLayers ls input

/-- `NeuralNetwork._feedward_signal(sample)`. -/
def NN.feedward_signal (nn : NN R) (sample : Mat) : NN R × Except Unit Mat :=
  let (ls, res) := predictOnLayers nn.input_dimension nn.layers sample
  ({ nn with layers := ls }, res)

/-- `NeuralNetwork.predict(sample)` delegates to `_feedward_signal`. -/
def NN.predict (nn : NN R) (sample : Mat) : NN R × Except Unit Mat :=
  nn.feedward_signal sample

/-! ## The training loop `NeuralNetwork.fit` (validation and test samples at
their default `None`, metric at its default `''`; the claims quantify over
the training path).

The optimizer's `_back_propagation` lives in `optimizer.py`, not among the
sources; per the spec it runs one forward+backward+update cycle over the
network's layers given the batch window and is passed in as `runBatch`
(receiving the window and the batch/total ratio). The unseeded
`np.random.shuffle` is modelled by an oracle `shuffles` giving the
permutation applied at each epoch, and the loss lookup by `lossFn`. -/

/-- `num_window = math.ceil(total_samples // self.batch_size)`: `//` is
integer floor division and `math.ceil` of an integer is that integer, so this
is the floor of the quotient. -/
def num_window (total_samples batch_size : ℕ) : ℕ := total_samples / batch_size

/-- `training_examples[index*batch_size : (index+1)*batch_size]`. -/
def windowAt (examples : List Sample) (batch_size index : ℕ) : List Sample :=
  (examples.drop (index * batch_size)).take batch_size

/-- The successive windows the inner loop of an epoch feeds to the optimizer:
`windowAt examples batch_size index` for `index < nw`. -/
def epochWindows (nw batch_size : ℕ) (examples : List Sample) :
    List (List Sample) :=
  (List.range nw).map (windowAt examples batch_size)

/-- Mutable state of one `fit` call: the layers (the rest of the network's
fields are never written inside the loop), the caller's `training_examples`
list (shuffled in place), the report's training-error series, whether the
loop has exited (`done`) and whether it exited by a propagating exception
rather than the `break` (`exn`). -/
structure FitState (R : Type) where
  layers : List (Layer R)
  examples : List Sample
  trainingErrors : List ℚ
  done : Bool
  exn : Bool

/-- One iteration of the epoch loop of `fit`: shuffle the caller's list in
place, run the optimizer once per window in order, predict on the
input/target arrays extracted before the loop, record the training loss,
`break` if it is ≤ `min_error`, and only otherwise advance every layer's
learning-rate schedule with the epoch index. -/
def epochStep (runBatch : List (Layer R) → List Sample → ℚ → List (Layer R))
    (lossFn : Mat → Mat → ℚ) (upd : R → ℕ → R)
    (shuffles : ℕ → List Sample → List Sample)
    (input_dimension batch_size nw : ℕ) (ratio : ℚ)
    (inputs_training targets_training : Mat) (min_error : ℚ)
    (s : FitState R) (epoch : ℕ) : FitState R :=
  if s.done then s
  else
    let examples := shuffles epoch s.examples
    let layers := (epochWindows nw batch_size examples).foldl
      (fun ls w => runBatch ls w ratio) s.layers
    match predictOnLayers input_dimension layers inputs_training with
    | (layers2, Except.error _) =>
      { layers := layers2, examples := examples,
        trainingErrors := s.trainingErrors, done := true, exn := true }
    | (layers2, Except.ok predicted) =>
      let error := lossFn predicted targets_training
      let report := s.trainingErrors ++ [error]
      if error ≤ min_error then
        { layers := layers2, examples := examples,
          trainingErrors := report, done := true, exn := false }
      else
        { layers := layers2.map
            (fun l => Layer.update_learning_rate upd l epoch),
          examples := examples, trainingErrors := report,
          done := false, exn := false }

/-- Result of a `fit` call: the network (with its possibly-rewritten
`batch_size` and final layers), the caller's `training_examples` list as left
by the in-place shuffles, the report's training-error series, and whether an
exception propagated. -/
structure FitResult (R : Type) where
  nn : NN R
  examples : List Sample
  trainingErrors : List ℚ
  exn : Bool

/-- `NeuralNetwork.fit(training_examples, min_error)` with
`validation_samples=None`, `test_samples=None` and no metric configured. -/
def NN.fit (runBatch : List (Layer R) → List Sample → ℚ → List (Layer R))
    (lossFn : Mat → Mat → ℚ) (upd : R → ℕ → R)
    (shuffles : ℕ → List Sample → List Sample)
    (nn : NN R) (training_examples : List Sample) (min_error : ℚ) :
    FitResult R :=
  let total_samples := training_examples.length
  let nn := if nn.optimizer = "SGD" then { nn with batch_size := total_samples }
            else nn
  let nw := num_window total_samples nn.batch_size
  let inputs_training : Mat := training_examples.map Prod.fst
  let targets_training : Mat := training_examples.map Prod.snd
  let ratio : ℚ := (nn.batch_size : ℚ) / (total_samples : ℚ)
  let final := (List.range nn.max_epochs).foldl
    (epochStep runBatch lossFn upd shuffles nn.input_dimension nn.batch_size
      nw ratio inputs_training targets_training min_error)
    ⟨nn.layers, training_examples, [], false, false⟩
  { nn := { nn with layers := final.layers }
    examples := final.examples
    trainingErrors := final.trainingErrors
    exn := final.exn }

/-- The per-layer data `function_signal` reads: input arity, (transposed)
weights and the activation. -/
def ForwardAgree {R₁ R₂ : Type} (a : Layer R₁) (b : Layer R₂) : Prop :=
  a.weights = b.weights ∧
  a.transposedWeights = transposeM a.weights ∧
  b.transposedWeights = transposeM b.weights ∧
  a.num_input = b.num_input ∧
  a.activation_output = b.activation_output

/-- A concrete instance of the spec's stateful learning-rate schedule whose
state records the epochs its `update(epoch)` mutator has been given. -/
def traceUpd : List ℕ → ℕ → List ℕ := fun s e => s ++ [e]

/-- A one-unit, one-input layer carrying the tracing schedule. -/
def demoLayer : Layer (List ℕ) := Layer.init [[(1 : ℚ), 1]] [] id id

/-- A single-layer network around `demoLayer`. -/
def demoNN : NN (List ℕ) :=
  { max_epochs := 2, input_dimension := 1, output_dimension := 1,
    optimizer := "batch", batch_size := 1, layers := [demoLayer],
    momentum_rate := 0, regularization_rate := 0, metric := "",
    loss := "euclidean_loss", topology := [1, 1] }

/-- A `fit` run on `demoNN` (identity optimizer pass, identity shuffles,
constant-zero loss, `min_error = 0`): the loss hits `min_error` in epoch 0. -/
def demoRun : FitResult (List ℕ) :=
  NN.fit (fun ls _ _ => ls) (fun _ _ => 0) traceUpd (fun _ l => l) demoNN
    [([1], [1])] 0

/-- The prediction `fit` computes in epoch 0 of `demoRun`. -/
def demoPredicted : Mat :=
  mapMat demoLayer.activation_output
    (matMul ([[(1 : ℚ)]].map (fun r => 1 :: r)) demoLayer.transposedWeights)

/-! ## Library lemmas about the matrix embedding -/

/-- A rectangular `m × n` matrix. -/
def HasShape (M : Mat) (m n : ℕ) : Prop :=
  M.length = m ∧ ∀ r ∈ M, r.length = n

instance (M : Mat) (m n : ℕ) : Decidable (HasShape M m n) :=
  inferInstanceAs (Decidable (M.length = m ∧ ∀ r ∈ M, r.length = n))

lemma getD_of_lt {α : Type} : ∀ (l : List α) (i : ℕ), i < l.length →
    ∀ d d' : α, l.getD i d = l.getD i d'
  | _ :: _, 0, _, _, _ => rfl
  | _ :: t, i + 1, h, d, d' =>
    getD_of_lt t i (Nat.lt_of_succ_lt_succ h) d d'

lemma getD_mem {α : Type} : ∀ (l : List α) (i : ℕ), i < l.length →
    ∀ d : α, l.getD i d ∈ l
  | a :: _, 0, _, _ => List.mem_cons_self a _
  | _ :: t, i + 1, h, d =>
    List.mem_cons_of_mem _ (getD_mem t i (Nat.lt_of_succ_lt_succ h) d)

lemma getD_map {α β : Type} (f : α → β) :
    ∀ (l : List α) (i : ℕ), i < l.length →
    ∀ (d : β) (d' : α), (l.map f).getD i d = f (l.getD i d')
  | _ :: _, 0, _, _, _ => rfl
  | _ :: t, i + 1, h, d, d' =>
    getD_map f t i (Nat.lt_of_succ_lt_succ h) d d'

lemma getD_range : ∀ (n i : ℕ), i < n → (List.range n).getD i 0 = i := by
  intro n i h
  rw [List.getD_eq_getElem?_getD, List.getElem?_range h]
  rfl

lemma getD_zipWith {α β γ : Type} (f : α → β → γ) :
    ∀ (A : List α) (B : List β) (i : ℕ), i < A.length → i < B.length →
    ∀ (d : γ) (da : α) (db : β),
      (List.zipWith f A B).getD i d = f (A.getD i da) (B.getD i db)
  | _ :: _, _ :: _, 0, _, _, _, _, _ => rfl
  | _ :: t, _ :: t', i + 1, h, h', d, da, db =>
    getD_zipWith f t t' i (Nat.lt_of_succ_lt_succ h)
      (Nat.lt_of_succ_lt_succ h') d da db

lemma getD_zip {α β : Type} :
    ∀ (A : List α) (B : List β) (i : ℕ), i < A.length → i < B.length →
    ∀ (da : α) (db : β), (A.zip B).getD i (da, db) = (A.getD i da, B.getD i db)
  | _ :: _, _ :: _, 0, _, _, _, _ => rfl
  | _ :: t, _ :: t', i + 1, h, h', da, db =>
    getD_zip t t' i (Nat.lt_of_succ_lt_succ h) (Nat.lt_of_succ_lt_succ h') da db

lemma getD_drop_one (r : List ℚ) (i : ℕ) :
    (r.drop 1).getD i 0 = r.getD (i + 1) 0 := by
  cases r <;> rfl

/-- Sum of a mapped list as a `Finset.range` sum over positions. -/
lemma sum_map_getD {α : Type} (f : α → ℚ) (d : α) :
    ∀ L : List α, (L.map f).sum = ∑ i ∈ Finset.range L.length, f (L.getD i d)
  | [] => by simp
  | a :: t => by
    rw [List.map_cons, List.sum_cons, sum_map_getD f d t, List.length_cons,
      Finset.sum_range_succ']
    simp [add_comm]

lemma dot_eq_sum : ∀ xs ys : List ℚ, xs.length = ys.length →
    dot xs ys = ∑ k ∈ Finset.range xs.length, xs.getD k 0 * ys.getD k 0
  | [], [], _ => by simp [dot]
  | x :: xs, y :: ys, h => by
    have h' : xs.length = ys.length := Nat.succ_injective h
    rw [dot] at *
    simp only [List.zip_cons_cons, List.map_cons, List.sum_cons,
      List.length_cons]
    rw [show ((xs.zip ys).map (fun p => p.1 * p.2)).sum = dot xs ys from rfl,
      dot_eq_sum xs ys h', Finset.sum_range_succ']
    simp [add_comm]

lemma length_colOf (m : Mat) (j : ℕ) : (colOf m j).length = m.length := by
  simp [colOf]

lemma getD_colOf (m : Mat) (j k : ℕ) (hk : k < m.length) :
    (colOf m j).getD k 0 = entry m k j := by
  rw [colOf, getD_map _ m k hk 0 []]; rfl

lemma entry_matMul (A B : Mat) (i j : ℕ) (hi : i < A.length)
    (hj : j < cols B) :
    entry (matMul A B) i j = dot (A.getD i []) (colOf B j) := by
  rw [entry, matMul, getD_map _ A i hi [] []]
  rw [getD_map (fun j => dot (A.getD i []) (colOf B j)) (List.range (cols B))
    j (by simpa using hj) 0 0]
  rw [getD_range _ j hj]

lemma cols_transposeM (W : Mat) (h : 0 < cols W) :
    cols (transposeM W) = W.length := by
  rw [transposeM, cols]
  rcases n : cols W with _ | k
  · omega
  · simp [List.range_succ_eq_map, length_colOf]

lemma length_transposeM (W : Mat) : (transposeM W).length = cols W := by
  simp [transposeM]

lemma getD_colOf_transposeM (W : Mat) (j k : ℕ) (hj : j < W.length)
    (hk : k < cols W) :
    (colOf (transposeM W) j).getD k 0 = entry W j k := by
  rw [getD_colOf _ j k (by simpa [length_transposeM] using hk)]
  rw [entry, transposeM, getD_map _ _ k (by simpa using hk) [] 0]
  rw [getD_range _ k hk, getD_colOf _ k j hj]

lemma rows_zipWith (f : ℚ → ℚ → ℚ) {n : ℕ} :
    ∀ (A B : Mat), (∀ r ∈ A, r.length = n) → (∀ r ∈ B, r.length = n) →
      ∀ r ∈ List.zipWith (List.zipWith f) A B, r.length = n
  | [], _, _, _, _, hr => by simp at hr
  | _ :: _, [], _, _, _, hr => by simp at hr
  | a :: A, b :: B, hA, hB, r, hr => by
    rcases List.mem_cons.mp hr with h | h
    · subst h
      rw [List.length_zipWith, hA a (by simp), hB b (by simp)]
      exact Nat.min_self n
    · exact rows_zipWith f A B (fun r hr => hA r (List.mem_cons_of_mem a hr))
        (fun r hr => hB r (List.mem_cons_of_mem b hr)) r h

lemma hasShape_zipWith (f : ℚ → ℚ → ℚ) {A B : Mat} {m n : ℕ}
    (hA : HasShape A m n) (hB : HasShape B m n) :
    HasShape (List.zipWith (List.zipWith f) A B) m n :=
  ⟨by simp [List.length_zipWith, hA.1, hB.1], rows_zipWith f A B hA.2 hB.2⟩

lemma entry_zipWith (f : ℚ → ℚ → ℚ) (A B : Mat) (i j : ℕ)
    (hiA : i < A.length) (hiB : i < B.length)
    (hjA : j < (A.getD i []).length) (hjB : j < (B.getD i []).length) :
    entry (List.zipWith (List.zipWith f) A B) i j =
      f (entry A i j) (entry B i j) := by
  rw [entry, getD_zipWith _ A B i hiA hiB [] [] []]
  rw [getD_zipWith f _ _ j hjA hjB 0 0 0]
  rfl

lemma entry_mapMat (f : ℚ → ℚ) (M : Mat) (i j : ℕ) (hi : i < M.length)
    (hj : j < (M.getD i []).length) :
    entry (mapMat f M) i j = f (entry M i j) := by
  rw [entry, mapMat, getD_map _ M i hi [] []]
  rw [getD_map f _ j hj 0 0]
  rfl

lemma hasShape_mapMat (f : ℚ → ℚ) {M : Mat} {m n : ℕ} (h : HasShape M m n) :
    HasShape (mapMat f M) m n := by
  obtain ⟨hl, hr⟩ := h
  refine ⟨by simp [mapMat, hl], ?_⟩
  intro r hr'
  obtain ⟨a, ha, rfl⟩ := List.mem_map.mp hr'
  simp [hr a ha]

lemma hasShape_outer {e x : List ℚ} {m n : ℕ} (he : e.length = m)
    (hx : x.length = n) : HasShape (outer e x) m n := by
  refine ⟨by simp [outer, he], ?_⟩
  intro r hr
  obtain ⟨a, _, rfl⟩ := List.mem_map.mp hr
  simp [hx]

lemma entry_outer (e x : List ℚ) (i j : ℕ) (hi : i < e.length)
    (hj : j < x.length) :
    entry (outer e x) i j = e.getD i 0 * x.getD j 0 := by
  rw [entry, outer, getD_map _ e i hi [] 0]
  rw [getD_map _ x j hj 0 0]

lemma hasShape_sumMats {m n : ℕ} :
    ∀ L : List Mat, L ≠ [] → (∀ M ∈ L, HasShape M m n) →
      HasShape (sumMats L) m n
  | [], h, _ => absurd rfl h
  | [M], _, hM => by simpa [sumMats] using hM M (by simp)
  | M :: M' :: Ms, _, hM => by
    rw [sumMats]
    exact hasShape_zipWith _ (hM M (by simp))
      (hasShape_sumMats (M' :: Ms) (by simp)
        (fun N hN => hM N (List.mem_cons_of_mem M hN)))

lemma entry_sumMats {m n : ℕ} (i j : ℕ) (hi : i < m) (hj : j < n) :
    ∀ L : List Mat, L ≠ [] → (∀ M ∈ L, HasShape M m n) →
      entry (sumMats L) i j = (L.map (fun M => entry M i j)).sum
  | [], h, _ => absurd rfl h
  | [M], _, hM => by simp [sumMats]
  | M :: M' :: Ms, _, hM => by
    rw [sumMats, addMat]
    have hMs : ∀ N ∈ M' :: Ms, HasShape N m n :=
      fun N hN => hM N (List.mem_cons_of_mem M hN)
    have hS : HasShape (sumMats (M' :: Ms)) m n :=
      hasShape_sumMats _ (by simp) hMs
    have hMsh := hM M (by simp)
    rw [entry_zipWith _ _ _ i j (hMsh.1 ▸ hi) (hS.1 ▸ hi)
      (by rw [hMsh.2 _ (getD_mem _ i (hMsh.1 ▸ hi) [])]; exact hj)
      (by rw [hS.2 _ (getD_mem _ i (hS.1 ▸ hi) [])]; exact hj)]
    rw [entry_sumMats i j hi hj (M' :: Ms) (by simp) hMs]
    simp

/-! ## Claim C1 -/

lemma cols_of_rect {M : Mat} {n : ℕ} (hne : M ≠ [])
    (h : ∀ r ∈ M, r.length = n) : cols M = n := by
  cases M with
  | nil => exact absurd rfl hne
  | cons r t => exact h r (by simp)

/-- C1: `Layer.function_signal` fails with a shape-mismatch error, leaving
the layer unchanged, when the input's column count differs from `num_input`;
otherwise it prepends a column of ones to the input, stores the augmented
matrix as `inputs`, stores `net = inputs × weightsᵗ` (entrywise:
`net[i][j] = Σ_k inputs[i][k] · weights[j][k]`), and returns
`activation.output(net)`. -/
theorem C1_function_signal {R : Type} (l : Layer R) (input : Mat)
    (hT : l.transposedWeights = transposeM l.weights)
    (hW : l.weights.length = l.num_unit)
    (hWr : ∀ r ∈ l.weights, r.length = l.num_input + 1) :
    (cols input ≠ l.num_input →
      l.function_signal input = (l, Except.error ())) ∧
    (cols input = l.num_input →
      (∀ r ∈ input, r.length = l.num_input) →
      ((l.function_signal input).1.inputs = input.map (fun r => 1 :: r) ∧
       (l.function_signal input).1.net =
         matMul (input.map (fun r => 1 :: r)) l.transposedWeights ∧
       (l.function_signal input).2 =
         Except.ok (mapMat l.activation_output
           (l.function_signal input).1.net) ∧
       (l.function_signal input).1.weights = l.weights ∧
       (∀ i, i < input.length →
         entry (l.function_signal input).1.inputs i 0 = 1 ∧
         ∀ k, k < l.num_input →
           entry (l.function_signal input).1.inputs i (k + 1) =
             entry input i k) ∧
       (∀ i, i < input.length → ∀ j, j < l.num_unit →
         entry (l.function_signal input).1.net i j =
           ∑ k ∈ Finset.range (l.num_input + 1),
             entry (l.function_signal input).1.inputs i k *
               entry l.weights j k))) := by
  constructor
  · intro h
    simp [Layer.function_signal, h]
  · intro hcols hrect
    have hifneg : ¬ cols input ≠ l.num_input := by simp [hcols]
    have h1 : (l.function_signal input).1.inputs =
        input.map (fun r => 1 :: r) := by
      simp [Layer.function_signal, hifneg]
    have h2 : (l.function_signal input).1.net =
        matMul (input.map (fun r => 1 :: r)) l.transposedWeights := by
      simp [Layer.function_signal, hifneg]
    refine ⟨h1, h2, by simp [Layer.function_signal, hifneg], by
      simp [Layer.function_signal, hifneg], ?_, ?_⟩
    · intro i hi
      rw [h1]
      constructor
      · rw [entry, getD_map _ input i hi [] []]
        rfl
      · intro k _
        rw [entry, entry, getD_map _ input i hi [] []]
        rfl
    · intro i hi j hj
      have hWpos : 0 < l.weights.length := by rw [hW]; omega
      have hWne : l.weights ≠ [] := List.length_pos.mp hWpos
      have hcW : cols l.weights = l.num_input + 1 := cols_of_rect hWne hWr
      have hjW : j < l.weights.length := by omega
      have hrow : (input.getD i []).length = l.num_input :=
        hrect _ (getD_mem input i hi [])
      rw [h2, h1, hT]
      have hi' : i < (input.map (fun r => (1 : ℚ) :: r)).length := by
        simpa using hi
      have hjT : j < cols (transposeM l.weights) := by
        rw [cols_transposeM _ (by omega)]
        omega
      rw [entry_matMul _ _ i j hi' hjT]
      rw [getD_map _ input i hi [] []]
      have hlen : ((1 : ℚ) :: input.getD i []).length =
          (colOf (transposeM l.weights) j).length := by
        rw [List.length_cons, hrow, length_colOf, length_transposeM, hcW]
      rw [dot_eq_sum _ _ hlen]
      have hlen2 : ((1 : ℚ) :: input.getD i []).length = l.num_input + 1 := by
        rw [List.length_cons, hrow]
      rw [hlen2]
      refine Finset.sum_congr rfl ?_
      intro k hk
      have hk' : k < l.num_input + 1 := Finset.mem_range.mp hk
      rw [getD_colOf_transposeM _ j k hjW (by omega)]
      congr 1
      rw [entry, getD_map _ input i hi [] []]

/-- Witness for C1 at a concrete layer (2 units, 1 input) and batch. -/
theorem C1_function_signal_witness :
    cols [[(5 : ℚ)], [6]] =
        (Layer.init [[(1 : ℚ), 2], [3, 4]] () id id).num_input ∧
    ((Layer.init [[(1 : ℚ), 2], [3, 4]] () id id).function_signal
        [[5], [6]]).1.inputs = [[1, 5], [1, 6]] ∧
    entry (((Layer.init [[(1 : ℚ), 2], [3, 4]] () id id).function_signal
        [[5], [6]]).1.net) 1 1 =
      ∑ k ∈ Finset.range
          ((Layer.init [[(1 : ℚ), 2], [3, 4]] () id id).num_input + 1),
        entry (((Layer.init [[(1 : ℚ), 2], [3, 4]] () id id).function_signal
          [[5], [6]]).1.inputs) 1 k *
          entry (Layer.init [[(1 : ℚ), 2], [3, 4]] () id id).weights 1 k := by
  have h := (C1_function_signal (Layer.init [[(1 : ℚ), 2], [3, 4]] () id id)
    [[5], [6]] rfl rfl (by decide)).2 (by decide) (by decide)
  refine ⟨by decide, ?_, ?_⟩
  · rw [h.1]
    decide
  · exact h.2.2.2.2.2 1 (by decide) 1 (by decide)

/-! ## Claims C2 and C3 -/

lemma mem_zip_both {α β : Type} :
    ∀ {l₁ : List α} {l₂ : List β} {p : α × β},
      p ∈ l₁.zip l₂ → p.1 ∈ l₁ ∧ p.2 ∈ l₂
  | a :: t₁, b :: t₂, p, h => by
    rcases List.mem_cons.mp h with h | h
    · subst h
      exact ⟨by simp, by simp⟩
    · have := mem_zip_both h
      exact ⟨List.mem_cons_of_mem a this.1, List.mem_cons_of_mem b this.2⟩

/-- The per-sample outer-product accumulation shared by both `error_signal`
implementations: the entry `(i, j)` of `np.sum([np.einsum('i,j', e, x) for
e, x in zip(E, X)], axis=0)` is `Σ_s E[s][i] · X[s][j]`. -/
lemma entry_sum_outer {E X : Mat} {b u v : ℕ} (hb : 0 < b)
    (hE : HasShape E b u) (hX : HasShape X b v) (i j : ℕ)
    (hi : i < u) (hj : j < v) :
    entry (sumMats ((E.zip X).map (fun p => outer p.1 p.2))) i j =
      ∑ s ∈ Finset.range b, entry E s i * entry X s j := by
  have hzlen : (E.zip X).length = b := by
    rw [List.length_zip, hE.1, hX.1, Nat.min_self]
  have hshapes : ∀ M ∈ (E.zip X).map (fun p => outer p.1 p.2),
      HasShape M u v := by
    intro M hM
    obtain ⟨p, hp, rfl⟩ := List.mem_map.mp hM
    obtain ⟨h1, h2⟩ := mem_zip_both hp
    exact hasShape_outer (hE.2 _ h1) (hX.2 _ h2)
  have hne : (E.zip X).map (fun p => outer p.1 p.2) ≠ [] := by
    intro hnil
    have := congrArg List.length hnil
    simp [hzlen] at this
    omega
  rw [entry_sumMats i j hi hj _ hne hshapes, List.map_map]
  rw [sum_map_getD _ ([], []) (E.zip X), hzlen]
  refine Finset.sum_congr rfl ?_
  intro s hs
  have hs' : s < b := Finset.mem_range.mp hs
  rw [Function.comp_apply, getD_zip E X s (hE.1 ▸ hs') (hX.1 ▸ hs') [] []]
  have hElen : (E.getD s []).length = u := hE.2 _ (getD_mem _ s (hE.1 ▸ hs') [])
  have hXlen : (X.getD s []).length = v := hX.2 _ (getD_mem _ s (hX.1 ▸ hs') [])
  rw [entry_outer _ _ i j (hElen ▸ hi) (hXlen ▸ hj)]
  rfl

/-- C2: `OutputLayer.error_signal` sets `errors` to the elementwise product
of `activation.derivative(net)` and `loss.derivative(outputs, targets)`, and
`currentDeltaW[i][j]` to the batch sum `Σ_s errors[s][i] · inputs[s][j]` of
the outer products of each sample's error vector with its bias-augmented
input vector. -/
theorem C2_output_error_signal {R : Type} (l : Layer R)
    (targets outputs : Mat) (lossDeriv : Mat → Mat → Mat) (b u v : ℕ)
    (hb : 0 < b) (hnet : HasShape l.net b u)
    (hdiff : HasShape (lossDeriv outputs targets) b u)
    (hin : HasShape l.inputs b v) :
    (∀ s, s < b → ∀ i, i < u →
      entry (OutputLayer.error_signal l targets outputs lossDeriv).errors s i =
        l.activation_derivative (entry l.net s i) *
          entry (lossDeriv outputs targets) s i) ∧
    (∀ i, i < u → ∀ j, j < v →
      entry (OutputLayer.error_signal l targets outputs
          lossDeriv).current_delta_w i j =
        ∑ s ∈ Finset.range b,
          entry (OutputLayer.error_signal l targets outputs
            lossDeriv).errors s i * entry l.inputs s j) := by
  have hmap : HasShape (mapMat l.activation_derivative l.net) b u :=
    hasShape_mapMat _ hnet
  have hE : HasShape (elemMul (mapMat l.activation_derivative l.net)
      (lossDeriv outputs targets)) b u := hasShape_zipWith _ hmap hdiff
  have herr : ∀ s, s < b → ∀ i, i < u →
      entry (OutputLayer.error_signal l targets outputs lossDeriv).errors s i =
        l.activation_derivative (entry l.net s i) *
          entry (lossDeriv outputs targets) s i := by
    intro s hs i hi
    show entry (elemMul (mapMat l.activation_derivative l.net)
        (lossDeriv outputs targets)) s i = _
    rw [elemMul, entry_zipWith _ _ _ s i (hmap.1 ▸ hs) (hdiff.1 ▸ hs)
      (by rw [hmap.2 _ (getD_mem _ s (hmap.1 ▸ hs) [])]; exact hi)
      (by rw [hdiff.2 _ (getD_mem _ s (hdiff.1 ▸ hs) [])]; exact hi)]
    rw [entry_mapMat _ _ s i (hnet.1 ▸ hs)
      (by rw [hnet.2 _ (getD_mem _ s (hnet.1 ▸ hs) [])]; exact hi)]
  refine ⟨herr, ?_⟩
  intro i hi j hj
  show entry (sumMats ((((elemMul (mapMat l.activation_derivative l.net)
      (lossDeriv outputs targets))).zip l.inputs).map
        (fun p => outer p.1 p.2))) i j = _
  rw [entry_sum_outer hb hE hin i j hi hj]
  rfl

/-- C3: `HiddenLayer.error_signal` sets
`errors[s][i] = activation.derivative(net[s][i]) · Σ_k downstreamErrors[s][k]
· downstreamWeights[k][i+1]`; the bias column (column 0) of the downstream
weight matrix is excluded from the back-propagated sum. -/
theorem C3_hidden_error_signal {R : Type} (l : Layer R)
    (downStreamErrors downStreamWeights : Mat) (b u K : ℕ)
    (hK : 0 < K) (hnet : HasShape l.net b u)
    (hdsE : HasShape downStreamErrors b K)
    (hdsW : HasShape downStreamWeights K (u + 1)) :
    ∀ s, s < b → ∀ i, i < u →
      entry (HiddenLayer.error_signal l downStreamErrors
          downStreamWeights).errors s i =
        l.activation_derivative (entry l.net s i) *
          ∑ k ∈ Finset.range K,
            entry downStreamErrors s k * entry downStreamWeights k (i + 1) := by
  intro s hs i hi
  have hWne : downStreamWeights ≠ [] := by
    intro hnil
    rw [hnil] at hdsW
    have := hdsW.1
    simp at this
    omega
  have hdrop : ∀ r ∈ downStreamWeights.map (fun r => r.drop 1), r.length = u := by
    intro r hr
    obtain ⟨a, ha, rfl⟩ := List.mem_map.mp hr
    rw [List.length_drop, hdsW.2 _ ha]
    omega
  have hcolsdrop : cols (downStreamWeights.map (fun r => r.drop 1)) = u := by
    apply cols_of_rect _ hdrop
    intro hnil
    exact hWne (List.map_eq_nil_iff.mp hnil)
  have hM : HasShape (matMul downStreamErrors
      (downStreamWeights.map (fun r => r.drop 1))) b u := by
    refine ⟨by simp [matMul, hdsE.1], ?_⟩
    intro r hr
    obtain ⟨a, _, rfl⟩ := List.mem_map.mp hr
    rw [List.length_map, List.length_range]
    exact hcolsdrop
  have hmap : HasShape (mapMat l.activation_derivative l.net) b u :=
    hasShape_mapMat _ hnet
  show entry (elemMul (mapMat l.activation_derivative l.net)
      (matMul downStreamErrors
        (downStreamWeights.map (fun r => r.drop 1)))) s i = _
  rw [elemMul, entry_zipWith _ _ _ s i (hmap.1 ▸ hs) (hM.1 ▸ hs)
    (by rw [hmap.2 _ (getD_mem _ s (hmap.1 ▸ hs) [])]; exact hi)
    (by rw [hM.2 _ (getD_mem _ s (hM.1 ▸ hs) [])]; exact hi)]
  rw [entry_mapMat _ _ s i (hnet.1 ▸ hs)
    (by rw [hnet.2 _ (getD_mem _ s (hnet.1 ▸ hs) [])]; exact hi)]
  congr 1
  rw [entry_matMul _ _ s i (hdsE.1 ▸ hs) (hcolsdrop ▸ hi)]
  have hlen : (downStreamErrors.getD s []).length =
      (colOf (downStreamWeights.map (fun r => r.drop 1)) i).length := by
    rw [length_colOf, List.length_map,
      hdsE.2 _ (getD_mem _ s (hdsE.1 ▸ hs) []), hdsW.1]
  rw [dot_eq_sum _ _ hlen, hdsE.2 _ (getD_mem _ s (hdsE.1 ▸ hs) [])]
  refine Finset.sum_congr rfl ?_
  intro k hk
  have hk' : k < K := Finset.mem_range.mp hk
  congr 1
  rw [getD_colOf _ i k (by rw [List.length_map, hdsW.1]; exact hk')]
  rw [entry, entry, getD_map _ downStreamWeights k (hdsW.1 ▸ hk') [] []]
  exact getD_drop_one _ i

/-- Witness for C2: a single-unit output layer on a one-sample batch. -/
theorem C2_output_error_signal_witness :
    entry ((OutputLayer.error_signal
        { Layer.init [[(0 : ℚ), 0]] () id id with
            net := [[2]], inputs := [[1, 3]] }
        [[0]] [[0]] (fun _ _ => [[4]])).current_delta_w) 0 1 =
      ∑ s ∈ Finset.range 1,
        entry ((OutputLayer.error_signal
          { Layer.init [[(0 : ℚ), 0]] () id id with
              net := [[2]], inputs := [[1, 3]] }
          [[0]] [[0]] (fun _ _ => [[4]])).errors) s 0 *
          entry ({ Layer.init [[(0 : ℚ), 0]] () id id with
              net := [[2]], inputs := [[1, 3]] } : Layer Unit).inputs s 1 :=
  (C2_output_error_signal
    { Layer.init [[(0 : ℚ), 0]] () id id with net := [[2]], inputs := [[1, 3]] }
    [[0]] [[0]] (fun _ _ => [[4]]) 1 1 2 (by decide) (by decide) (by decide)
    (by decide)).2 0 (by decide) 1 (by decide)

/-- Witness for C3: one hidden unit below a one-unit downstream layer. -/
theorem C3_hidden_error_signal_witness :
    entry ((HiddenLayer.error_signal
        { Layer.init [[(0 : ℚ), 0]] () id id with
            net := [[2]], inputs := [[1, 3]] }
        [[3]] [[5, 7]]).errors) 0 0 =
      ({ Layer.init [[(0 : ℚ), 0]] () id id with
          net := [[2]], inputs := [[1, 3]] } : Layer Unit).activation_derivative
        (entry [[(2 : ℚ)]] 0 0) *
        ∑ k ∈ Finset.range 1,
          entry [[(3 : ℚ)]] 0 k * entry [[(5 : ℚ), 7]] k 1 :=
  C3_hidden_error_signal
    { Layer.init [[(0 : ℚ), 0]] () id id with net := [[2]], inputs := [[1, 3]] }
    [[3]] [[5, 7]] 1 1 1 (by decide) (by decide) (by decide) (by decide)
    0 (by decide) 0 (by decide)

/-! ## Claim C9: the forward pass is a pure function of weights, activations
and input -/

lemma function_signal_of_mismatch {R : Type} (l : Layer R) (input : Mat)
    (hc : cols input ≠ l.num_input) :
    l.function_signal input = (l, Except.error ()) := by
  simp [Layer.function_signal, hc]

lemma function_signal_snd_of_match {R : Type} (l : Layer R) (input : Mat)
    (hc : cols input = l.num_input) :
    (l.function_signal input).2 = Except.ok (mapMat l.activation_output
      (matMul (input.map (fun r => 1 :: r)) l.transposedWeights)) := by
  simp [Layer.function_signal, hc]

lemma forwardLayers_cons_error {R : Type} (l : Layer R) (t : List (Layer R))
    (input : Mat) (e : Unit) (h : (l.function_signal input).2 = Except.error e) :
    forwardLayers (l :: t) input =
      ((l.function_signal input).1 :: t, Except.error e) := by
  rcases hfs : l.function_signal input with ⟨l', r⟩
  rw [hfs] at h
  cases r with
  | error e' =>
    cases h
    simp [forwardLayers, hfs]
  | ok out => cases h

lemma forwardLayers_cons_ok {R : Type} (l : Layer R) (t : List (Layer R))
    (input out : Mat) (h : (l.function_signal input).2 = Except.ok out) :
    forwardLayers (l :: t) input =
      ((l.function_signal input).1 :: (forwardLayers t out).1,
        (forwardLayers t out).2) := by
  rcases hfs : l.function_signal input with ⟨l', r⟩
  rw [hfs] at h
  cases r with
  | error e' => cases h
  | ok out' =>
    cases h
    simp [forwardLayers, hfs]

lemma forwardLayers_congr {R₁ R₂ : Type} {l₁ : List (Layer R₁)}
    {l₂ : List (Layer R₂)} (h : List.Forall₂ ForwardAgree l₁ l₂) :
    ∀ input, (forwardLayers l₁ input).2 = (forwardLayers l₂ input).2 := by
  induction h with
  | nil => intro input; rfl
  | @cons a b t₁ t₂ ha htl ih =>
    intro input
    obtain ⟨hw, hta, htb, hni, hact⟩ := ha
    by_cases hc : cols input = a.num_input
    · have hc' : cols input = b.num_input := hni ▸ hc
      have houts : mapMat a.activation_output
            (matMul (input.map (fun r => 1 :: r)) a.transposedWeights) =
          mapMat b.activation_output
            (matMul (input.map (fun r => 1 :: r)) b.transposedWeights) := by
        rw [hta, htb, ← hw, hact]
      rw [forwardLayers_cons_ok a t₁ input _
          (function_signal_snd_of_match a input hc),
        forwardLayers_cons_ok b t₂ input _
          (function_signal_snd_of_match b input hc'), houts]
      exact ih _
    · have hc' : cols input ≠ b.num_input := fun h' => hc (hni ▸ h')
      rw [forwardLayers_cons_error a t₁ input ()
          (by rw [function_signal_of_mismatch a input hc]),
        forwardLayers_cons_error b t₂ input ()
          (by rw [function_signal_of_mismatch b input hc'])]

/-- C9: `predict` is deterministic and a pure function of the weights, the
activations and the input: two networks agreeing on input dimension and on
every layer's weights and activation (whatever their cached `net`, `inputs`,
`errors`, delta accumulators or schedule states) produce the same
prediction. -/
theorem C9_predict_pure {R₁ R₂ : Type} (nn₁ : NN R₁) (nn₂ : NN R₂) (x : Mat)
    (hdim : nn₁.input_dimension = nn₂.input_dimension)
    (hlayers : List.Forall₂ ForwardAgree nn₁.layers nn₂.layers) :
    (nn₁.predict x).2 = (nn₂.predict x).2 := by
  show (predictOnLayers nn₁.input_dimension nn₁.layers x).2 =
    (predictOnLayers nn₂.input_dimension nn₂.layers x).2
  rw [predictOnLayers, predictOnLayers, ← hdim, hlayers.length_eq]
  by_cases hc : cols x ≠ nn₁.input_dimension
  · simp [hc]
  · by_cases hz : nn₂.layers.length = 0
    · simp [hc, hz]
    · simp only [hc, hz, if_false]
      exact forwardLayers_congr hlayers x

/-! ## Claim C4: the per-epoch window count

The source computes `num_window = math.ceil(total_samples //
self.batch_size)`: `//` floors first, so the `ceil` is vacuous and the
trailing partial batch is silently dropped, contradicting both the spec's
`ceil(totalSamples / batchSize)` and the source's own comment ("number of
sets into which split the training set"). -/

/-- C4 (code bug exhibited): with 3 training samples and batch size 2 the
code runs `ceil(3 // 2) = 1` window, covering only the first two shuffled
samples — the third sample belongs to no window that epoch — whereas
`ceil(3 / 2) = (3 + 2 - 1) / 2 = 2` windows would cover every sample exactly
once. -/
theorem C4_window_floor_drops_tail :
    num_window 3 2 = 1 ∧
    epochWindows (num_window 3 2) 2
        [([(0 : ℚ)], [(0 : ℚ)]), ([1], [1]), ([2], [2])] =
      [[([(0 : ℚ)], [(0 : ℚ)]), ([1], [1])]] ∧
    (epochWindows (num_window 3 2) 2
        [([(0 : ℚ)], [(0 : ℚ)]), ([1], [1]), ([2], [2])]).flatten ≠
      [([(0 : ℚ)], [(0 : ℚ)]), ([1], [1]), ([2], [2])] ∧
    (3 + 2 - 1) / 2 = 2 := by
  refine ⟨rfl, by decide, by decide, rfl⟩

/-! ## Claim C5: `"SGD"` forces a full-dataset batch -/

/-- C5: for a network whose optimizer kind is `"SGD"`, `fit` overwrites the
configured batch size with the full training-set size before the epoch loop,
whatever batch size construction stored. -/
theorem C5_sgd_forces_full_batch {R : Type}
    (runBatch : List (Layer R) → List Sample → ℚ → List (Layer R))
    (lossFn : Mat → Mat → ℚ) (upd : R → ℕ → R)
    (shuffles : ℕ → List Sample → List Sample)
    (nn : NN R) (tr : List Sample) (minErr : ℚ)
    (h : nn.optimizer = "SGD") :
    (NN.fit runBatch lossFn upd shuffles nn tr minErr).nn.batch_size =
      tr.length := by
  simp [NN.fit, h]

/-- Witness for C5: a network constructed with batch size 5 and optimizer
`"SGD"` trains with batch size 2 on a 2-sample set. -/
theorem C5_sgd_forces_full_batch_witness :
    (NN.fit (R := Unit) (fun ls _ _ => ls) (fun _ _ => 0) (fun s _ => s)
      (fun _ l => l)
      { max_epochs := 1, input_dimension := 1, output_dimension := 1,
        optimizer := "SGD", batch_size := 5, layers := [],
        momentum_rate := 0, regularization_rate := 0, metric := "",
        loss := "euclidean_loss", topology := [] }
      [([0], [0]), ([1], [1])] 0).nn.batch_size = 2 :=
  C5_sgd_forces_full_batch _ _ _ _ _ _ _ rfl

/-- Witness for C9: two one-layer networks with identical weights and
activations but different schedule-state types, cached forward state and
hyperparameters predict identically. -/
theorem C9_predict_pure_witness :
    (NN.predict (R := Unit)
        { max_epochs := 1, input_dimension := 1, output_dimension := 1,
          optimizer := "batch", batch_size := 1,
          layers := [{ Layer.init [[(1 : ℚ), 2]] () id id with
            net := [[99]], errors := [[5]] }],
          momentum_rate := 0, regularization_rate := 0, metric := "",
          loss := "euclidean_loss", topology := [1, 1] } [[3]]).2 =
      (NN.predict (R := ℕ)
        { max_epochs := 7, input_dimension := 1, output_dimension := 1,
          optimizer := "SGD", batch_size := 4,
          layers := [{ Layer.init [[(1 : ℚ), 2]] 7 id id with
            inputs := [[42, 42]] }],
          momentum_rate := 0, regularization_rate := 0, metric := "",
          loss := "euclidean_loss", topology := [1, 1] } [[3]]).2 :=
  C9_predict_pure _ _ [[3]] rfl
    (List.Forall₂.cons ⟨rfl, rfl, rfl, rfl, rfl⟩ List.Forall₂.nil)

/-! ## Claim C6: convergence check versus learning-rate advancement -/

lemma function_signal_lr {R : Type} (l : Layer R) (input : Mat) :
    ((l.function_signal input).1).learning_rates = l.learning_rates := by
  by_cases hc : cols input ≠ l.num_input <;> simp [Layer.function_signal, hc]

lemma forwardLayers_lr {R : Type} :
    ∀ (ls : List (Layer R)) (input : Mat),
      ((forwardLayers ls input).1).map (fun l => l.learning_rates) =
        ls.map (fun l => l.learning_rates)
  | [], _ => rfl
  | l :: t, input => by
    rcases hfs : l.function_signal input with ⟨l', r⟩
    have hlr : l'.learning_rates = l.learning_rates := by
      rw [← function_signal_lr l input, hfs]
    cases r with
    | error e => simp [forwardLayers, hfs, hlr]
    | ok out =>
      simp [forwardLayers, hfs, hlr, forwardLayers_lr t out]

lemma predictOnLayers_lr {R : Type} (dim : ℕ) (ls : List (Layer R))
    (input : Mat) :
    ((predictOnLayers dim ls input).1).map (fun l => l.learning_rates) =
      ls.map (fun l => l.learning_rates) := by
  rw [predictOnLayers]
  by_cases hc : cols input ≠ dim
  · simp [hc]
  · by_cases hz : ls.length = 0
    · simp [hc, hz]
    · simp only [hc, hz, if_false]
      exact forwardLayers_lr ls input

lemma epochStep_errors_length {R : Type}
    (runBatch : List (Layer R) → List Sample → ℚ → List (Layer R))
    (lossFn : Mat → Mat → ℚ) (upd : R → ℕ → R)
    (shuffles : ℕ → List Sample → List Sample)
    (dim bs nw : ℕ) (ratio : ℚ) (ins tgts : Mat) (minErr : ℚ)
    (s : FitState R) (epoch : ℕ) :
    (epochStep runBatch lossFn upd shuffles dim bs nw ratio ins tgts minErr
        s epoch).trainingErrors.length ≤ s.trainingErrors.length + 1 := by
  rw [epochStep]
  by_cases hd : s.done
  · simp [hd]
  · simp only [hd, if_false]
    rcases hp : predictOnLayers dim
        ((epochWindows nw bs (shuffles epoch s.examples)).foldl
          (fun ls w => runBatch ls w ratio) s.layers) ins with ⟨L', r⟩
    cases r with
    | error e => simp
    | ok p =>
      by_cases he : lossFn p tgts ≤ minErr <;> simp [he]

lemma foldl_epochStep_errors_length {R : Type}
    (runBatch : List (Layer R) → List Sample → ℚ → List (Layer R))
    (lossFn : Mat → Mat → ℚ) (upd : R → ℕ → R)
    (shuffles : ℕ → List Sample → List Sample)
    (dim bs nw : ℕ) (ratio : ℚ) (ins tgts : Mat) (minErr : ℚ) :
    ∀ (es : List ℕ) (s : FitState R),
      ((es.foldl (epochStep runBatch lossFn upd shuffles dim bs nw ratio ins
          tgts minErr) s).trainingErrors.length ≤
        s.trainingErrors.length + es.length)
  | [], s => by simp
  | e :: es, s => by
    rw [List.foldl_cons]
    have h1 := foldl_epochStep_errors_length runBatch lossFn upd shuffles dim
      bs nw ratio ins tgts minErr es
      (epochStep runBatch lossFn upd shuffles dim bs nw ratio ins tgts minErr
        s e)
    have h2 := epochStep_errors_length runBatch lossFn upd shuffles dim bs nw
      ratio ins tgts minErr s e
    simp only [List.length_cons]
    omega

/-- C6 (amended): within an epoch the training loss is computed and recorded
first, then the convergence check runs, and only when the loss exceeds
`minError` are the layers' learning-rate schedules advanced by the epoch
index — an early-stopping epoch leaves every schedule exactly as the
optimizer pass left it; moreover `fit` records at most `maxEpochs` epochs
and returns the report. -/
theorem C6_check_precedes_lr_update {R : Type}
    (runBatch : List (Layer R) → List Sample → ℚ → List (Layer R))
    (lossFn : Mat → Mat → ℚ) (upd : R → ℕ → R)
    (shuffles : ℕ → List Sample → List Sample)
    (dim bs nw : ℕ) (ratio : ℚ) (ins tgts : Mat) (minErr : ℚ)
    (s : FitState R) (epoch : ℕ) (L2 : List (Layer R)) (predicted : Mat)
    (nn : NN R) (tr : List Sample)
    (hdone : s.done = false)
    (hfwd : predictOnLayers dim
        ((epochWindows nw bs (shuffles epoch s.examples)).foldl
          (fun ls w => runBatch ls w ratio) s.layers) ins =
      (L2, Except.ok predicted)) :
    (lossFn predicted tgts ≤ minErr →
      epochStep runBatch lossFn upd shuffles dim bs nw ratio ins tgts minErr
          s epoch =
        { layers := L2, examples := shuffles epoch s.examples,
          trainingErrors := s.trainingErrors ++ [lossFn predicted tgts],
          done := true, exn := false }) ∧
    (minErr < lossFn predicted tgts →
      epochStep runBatch lossFn upd shuffles dim bs nw ratio ins tgts minErr
          s epoch =
        { layers := L2.map (fun l => Layer.update_learning_rate upd l epoch),
          examples := shuffles epoch s.examples,
          trainingErrors := s.trainingErrors ++ [lossFn predicted tgts],
          done := false, exn := false }) ∧
    (L2.map (fun l => l.learning_rates) =
      ((epochWindows nw bs (shuffles epoch s.examples)).foldl
        (fun ls w => runBatch ls w ratio) s.layers).map
          (fun l => l.learning_rates)) ∧
    (NN.fit runBatch lossFn upd shuffles nn tr minErr).trainingErrors.length ≤
      nn.max_epochs := by
  refine ⟨?_, ?_, ?_, ?_⟩
  · intro hle
    rw [epochStep]
    simp only [hdone, if_false, hfwd, hle, if_true]
    simp
  · intro hlt
    rw [epochStep]
    simp only [hdone, if_false, hfwd, not_le.mpr hlt, if_false]
    simp
  · have := predictOnLayers_lr dim
      ((epochWindows nw bs (shuffles epoch s.examples)).foldl
        (fun ls w => runBatch ls w ratio) s.layers) ins
    rw [hfwd] at this
    exact this
  · rw [NN.fit]
    by_cases hopt : nn.optimizer = "SGD" <;>
      simp only [hopt, if_true, if_false, reduceIte] <;>
      exact le_trans (foldl_epochStep_errors_length _ _ _ _ _ _ _ _ _ _ _ _ _)
        (by simp)

/-- C6 (counterexample): in this run the loop stops early in epoch 0 with
training loss `0 ≤ minError`, yet no layer's learning-rate schedule was ever
advanced — its update trace is `[]`, not the `[0]` that "advance by the
epoch index, then check convergence" would have produced: the source checks
`error <= min_error` and `break`s *before* the learning-rate update. -/
theorem C6_counterexample :
    demoRun.trainingErrors = [0] ∧ ((0 : ℚ) ≤ 0) ∧
    demoRun.nn.layers.map (fun l => l.learning_rates) = [[]] ∧
    ([([] : List ℕ)] ≠ [[0]]) :=
  ⟨by decide, le_refl 0, by decide, by decide⟩

/-- Witness for C6 (amended), instantiating the early-stopping branch on the
concrete epoch-0 state of `demoRun`. -/
theorem C6_check_precedes_lr_update_witness :
    (epochStep (R := List ℕ) (fun ls _ _ => ls) (fun _ _ => 0) traceUpd
        (fun _ l => l) 1 1 1 1 [[1]] [[1]] 0
        ⟨[demoLayer], [([1], [1])], [], false, false⟩ 0).done = true ∧
    (epochStep (R := List ℕ) (fun ls _ _ => ls) (fun _ _ => 0) traceUpd
        (fun _ l => l) 1 1 1 1 [[1]] [[1]] 0
        ⟨[demoLayer], [([1], [1])], [], false, false⟩ 0).trainingErrors =
      [0] := by
  have h := (C6_check_precedes_lr_update (R := List ℕ) (fun ls _ _ => ls)
    (fun _ _ => 0) traceUpd (fun _ l => l) 1 1 1 1 [[1]] [[1]] 0
    ⟨[demoLayer], [([1], [1])], [], false, false⟩ 0
    ((predictOnLayers 1
      ((epochWindows 1 1 ((fun _ l => l) 0 [([1], [1])])).foldl
        (fun ls w => (fun ls _ _ => ls) ls w 1) [demoLayer]) [[1]]).1)
    demoPredicted demoNN [] rfl rfl).1 (le_refl 0)
  rw [h]
  exact ⟨rfl, rfl⟩

/-! ## Claim C10: `fit` shuffles the caller's list in place and evaluates the
per-epoch loss on arrays extracted before the first shuffle -/

lemma epochStep_examples_perm {R : Type}
    (runBatch : List (Layer R) → List Sample → ℚ → List (Layer R))
    (lossFn : Mat → Mat → ℚ) (upd : R → ℕ → R)
    (shuffles : ℕ → List Sample → List Sample)
    (hshuf : ∀ e l, List.Perm (shuffles e l) l)
    (dim bs nw : ℕ) (ratio : ℚ) (ins tgts : Mat) (minErr : ℚ)
    (s : FitState R) (epoch : ℕ) :
    ((epochStep runBatch lossFn upd shuffles dim bs nw ratio ins tgts minErr
        s epoch).examples).Perm s.examples := by
  rw [epochStep]
  by_cases hd : s.done
  · simp only [hd, if_true]
    exact List.Perm.refl _
  · simp only [hd, if_false]
    rcases hp : predictOnLayers dim
        ((epochWindows nw bs (shuffles epoch s.examples)).foldl
          (fun ls w => runBatch ls w ratio) s.layers) ins with ⟨L', r⟩
    cases r with
    | error e => exact hshuf epoch s.examples
    | ok p =>
      by_cases he : lossFn p tgts ≤ minErr <;> simp only [he, if_true, if_false] <;>
        exact hshuf epoch s.examples

lemma foldl_epochStep_examples_perm {R : Type}
    (runBatch : List (Layer R) → List Sample → ℚ → List (Layer R))
    (lossFn : Mat → Mat → ℚ) (upd : R → ℕ → R)
    (shuffles : ℕ → List Sample → List Sample)
    (hshuf : ∀ e l, List.Perm (shuffles e l) l)
    (dim bs nw : ℕ) (ratio : ℚ) (ins tgts : Mat) (minErr : ℚ) :
    ∀ (es : List ℕ) (s : FitState R),
      (((es.foldl (epochStep runBatch lossFn upd shuffles dim bs nw ratio ins
          tgts minErr) s).examples)).Perm s.examples
  | [], s => List.Perm.refl _
  | e :: es, s => by
    rw [List.foldl_cons]
    exact (foldl_epochStep_examples_perm runBatch lossFn upd shuffles hshuf
        dim bs nw ratio ins tgts minErr es _).trans
      (epochStep_examples_perm runBatch lossFn upd shuffles hshuf dim bs nw
        ratio ins tgts minErr s e)

lemma epochStep_errors_from_loss {R : Type}
    (runBatch : List (Layer R) → List Sample → ℚ → List (Layer R))
    (lossFn : Mat → Mat → ℚ) (upd : R → ℕ → R)
    (shuffles : ℕ → List Sample → List Sample)
    (dim bs nw : ℕ) (ratio : ℚ) (ins tgts : Mat) (minErr : ℚ)
    (s : FitState R) (epoch : ℕ) :
    ∀ q ∈ (epochStep runBatch lossFn upd shuffles dim bs nw ratio ins tgts
        minErr s epoch).trainingErrors,
      q ∈ s.trainingErrors ∨
      ∃ (L L2 : List (Layer R)) (predicted : Mat),
        predictOnLayers dim L ins = (L2, Except.ok predicted) ∧
        q = lossFn predicted tgts := by
  rw [epochStep]
  by_cases hd : s.done
  · simp only [hd, if_true]
    exact fun q hq => Or.inl hq
  · simp only [hd, if_false]
    rcases hp : predictOnLayers dim
        ((epochWindows nw bs (shuffles epoch s.examples)).foldl
          (fun ls w => runBatch ls w ratio) s.layers) ins with ⟨L', r⟩
    cases r with
    | error e => exact fun q hq => Or.inl hq
    | ok p =>
      have hform : ∀ q ∈ s.trainingErrors ++ [lossFn p tgts],
          q ∈ s.trainingErrors ∨
          ∃ (L L2 : List (Layer R)) (predicted : Mat),
            predictOnLayers dim L ins = (L2, Except.ok predicted) ∧
            q = lossFn predicted tgts := by
        intro q hq
        rcases List.mem_append.mp hq with h | h
        · exact Or.inl h
        · refine Or.inr ⟨_, L', p, hp, ?_⟩
          simpa using h
      by_cases he : lossFn p tgts ≤ minErr <;>
        simp only [he, if_true, if_false] <;> exact hform

lemma foldl_epochStep_errors_from_loss {R : Type}
    (runBatch : List (Layer R) → List Sample → ℚ → List (Layer R))
    (lossFn : Mat → Mat → ℚ) (upd : R → ℕ → R)
    (shuffles : ℕ → List Sample → List Sample)
    (dim bs nw : ℕ) (ratio : ℚ) (ins tgts : Mat) (minErr : ℚ) :
    ∀ (es : List ℕ) (s : FitState R),
      (∀ q ∈ s.trainingErrors,
        ∃ (L L2 : List (Layer R)) (predicted : Mat),
          predictOnLayers dim L ins = (L2, Except.ok predicted) ∧
          q = lossFn predicted tgts) →
      ∀ q ∈ (es.foldl (epochStep runBatch lossFn upd shuffles dim bs nw ratio
          ins tgts minErr) s).trainingErrors,
        ∃ (L L2 : List (Layer R)) (predicted : Mat),
          predictOnLayers dim L ins = (L2, Except.ok predicted) ∧
          q = lossFn predicted tgts
  | [], s, hs => hs
  | e :: es, s, hs => by
    rw [List.foldl_cons]
    refine foldl_epochStep_errors_from_loss runBatch lossFn upd shuffles dim
      bs nw ratio ins tgts minErr es _ ?_
    intro q hq
    rcases epochStep_errors_from_loss runBatch lossFn upd shuffles dim bs nw
      ratio ins tgts minErr s e q hq with h | h
    · exact hs q h
    · exact h

/-- C10: `fit` shuffles the caller's `training_examples` list in place every
epoch, so the list it leaves behind is a permutation of the caller's (no
private copy is taken), while every per-epoch training loss it records is
computed on the input/target arrays extracted from the original, pre-shuffle
sample order. -/
theorem C10_fit_mutates_examples {R : Type}
    (runBatch : List (Layer R) → List Sample → ℚ → List (Layer R))
    (lossFn : Mat → Mat → ℚ) (upd : R → ℕ → R)
    (shuffles : ℕ → List Sample → List Sample)
    (nn : NN R) (tr : List Sample) (minErr : ℚ)
    (hshuf : ∀ e l, List.Perm (shuffles e l) l) :
    ((NN.fit runBatch lossFn upd shuffles nn tr minErr).examples).Perm tr ∧
    (∀ q ∈ (NN.fit runBatch lossFn upd shuffles nn tr minErr).trainingErrors,
      ∃ (L L2 : List (Layer R)) (predicted : Mat),
        predictOnLayers nn.input_dimension L (tr.map Prod.fst) =
          (L2, Except.ok predicted) ∧
        q = lossFn predicted (tr.map Prod.snd)) := by
  rw [NN.fit]
  by_cases hopt : nn.optimizer = "SGD" <;>
    simp only [hopt, reduceIte] <;>
    exact ⟨foldl_epochStep_examples_perm _ _ _ _ hshuf _ _ _ _ _ _ _ _ _,
      foldl_epochStep_errors_from_loss _ _ _ _ _ _ _ _ _ _ _ _ _
        (by intro q hq; cases hq)⟩

/-- Witness for C10 on the concrete `demoRun` (identity shuffles are
permutations). -/
theorem C10_fit_mutates_examples_witness :
    (demoRun.examples).Perm [([1], [1])] :=
  (C10_fit_mutates_examples (fun ls _ _ => ls) (fun _ _ => 0) traceUpd
    (fun _ l => l) demoNN [([1], [1])] 0 (fun _ l => List.Perm.refl l)).1

/-! ## Claim C7: `add_layer` dimension check and atomicity -/

/-- C7: adding to a non-empty network a layer whose input count differs from
the last layer's unit count raises a structural error and returns the
network unchanged (layers, dimensions and topology intact); on an empty
network the first layer always succeeds and seeds `input_dimension`; every
successful add appends the layer and makes its unit count the new
`output_dimension` (so the mismatch test against `output_dimension` is the
test against the last layer's unit count). -/
theorem C7_add_layer {R : Type} (nn : NN R) (layer : Layer R)
    (hinv : ∀ L, nn.layers.getLast? = some L →
      nn.output_dimension = L.num_unit) :
    (∀ L, nn.layers.getLast? = some L → layer.num_input ≠ L.num_unit →
      nn.add_layer layer = (nn, Except.error ())) ∧
    (nn.layers = [] →
      ((nn.add_layer layer).2 = Except.ok () ∧
       (nn.add_layer layer).1.input_dimension = layer.num_input ∧
       (nn.add_layer layer).1.layers = [layer] ∧
       (nn.add_layer layer).1.output_dimension = layer.num_unit)) ∧
    ((nn.add_layer layer).2 = Except.ok () →
      ((nn.add_layer layer).1.layers = nn.layers ++ [layer] ∧
       (nn.add_layer layer).1.output_dimension = layer.num_unit)) := by
  refine ⟨?_, ?_, ?_⟩
  · intro L hL hne
    have hnz : nn.layers.length ≠ 0 := by
      intro h0
      rw [List.length_eq_zero.mp h0] at hL
      cases hL
    have hmm : layer.num_input ≠ nn.output_dimension := by
      rw [hinv L hL]
      exact hne
    simp [NN.add_layer, hnz, hmm]
  · intro hempty
    have hz : nn.layers.length = 0 := by rw [hempty]; rfl
    refine ⟨?_, ?_, ?_, ?_⟩ <;> simp [NN.add_layer, hz, hempty]
  · intro hok
    by_cases hz : nn.layers.length = 0
    · simp [NN.add_layer, hz]
    · by_cases hmm : layer.num_input ≠ nn.output_dimension
      · rw [NN.add_layer] at hok
        simp [hz, hmm] at hok
      · simp [NN.add_layer, hz, hmm]

/-- Witness for C7: the empty-network and mismatch cases on concrete
networks (the stored last layer has 1 unit; the rejected layer expects 2
inputs). -/
theorem C7_add_layer_witness :
    ((NN.add_layer (R := Unit)
        { max_epochs := 1, input_dimension := 0, output_dimension := 0,
          optimizer := "batch", batch_size := 1, layers := [],
          momentum_rate := 0, regularization_rate := 0, metric := "",
          loss := "euclidean_loss", topology := [] }
        (Layer.init [[(0 : ℚ), 0]] () id id)).2 = Except.ok ()) ∧
    (NN.add_layer (R := Unit)
        { max_epochs := 1, input_dimension := 1, output_dimension := 1,
          optimizer := "batch", batch_size := 1,
          layers := [Layer.init [[(0 : ℚ), 0]] () id id],
          momentum_rate := 0, regularization_rate := 0, metric := "",
          loss := "euclidean_loss", topology := [1, 1] }
        (Layer.init [[(0 : ℚ), 0, 0]] () id id) =
      ({ max_epochs := 1, input_dimension := 1, output_dimension := 1,
          optimizer := "batch", batch_size := 1,
          layers := [Layer.init [[(0 : ℚ), 0]] () id id],
          momentum_rate := 0, regularization_rate := 0, metric := "",
          loss := "euclidean_loss", topology := [1, 1] },
        Except.error ())) := by
  constructor
  · exact ((C7_add_layer _ (Layer.init [[(0 : ℚ), 0]] () id id)
      (fun L hL => by cases hL)).2.1 rfl).1
  · exact (C7_add_layer _ (Layer.init [[(0 : ℚ), 0, 0]] () id id)
      (fun L hL => by cases hL; rfl)).1
      (Layer.init [[(0 : ℚ), 0]] () id id) rfl (by decide)

/-! ## Claim C8: `max_epochs` validation at construction -/

lemma check_batch_size_eq (o : String) (b : ℤ) :
    check_batch_size o b = if b > 0 then Except.ok b else Except.error () := by
  rw [check_batch_size]
  by_cases h : o = "SGD" ∧ b = 1
  · obtain ⟨h1, h2⟩ := h
    subst h2
    simp [h1]
  · simp [h]

/-- C8: constructing the network with `max_epochs ≤ 0` raises
`InvalidNeuralNetwork` immediately (first check, before any layer exists,
whatever the other parameters); with `max_epochs > 0` construction never
fails on that parameter — it succeeds exactly when the remaining checks
pass — and any constructed network starts with no layers. -/
theorem C8_max_epochs_check (R : Type) (me : ℤ) (opt lo met : String)
    (mom reg : ℚ) (bs : ℤ) :
    (me ≤ 0 → NN.init R me opt lo met mom reg bs = Except.error ()) ∧
    (0 < me →
      ((∃ nn, NN.init R me opt lo met mom reg bs = Except.ok nn) ↔
        (opt ∈ optimizer_implemented ∧ 0 < bs ∧ 0 ≤ mom ∧ 0 ≤ reg ∧
         (met ∈ metric_functions ∨ met = "") ∧ lo ∈ loss_functions))) ∧
    (∀ nn, NN.init R me opt lo met mom reg bs = Except.ok nn →
      nn.layers = [] ∧ nn.max_epochs = me.toNat) := by
  refine ⟨?_, ?_, ?_⟩
  · intro hme
    have h : ¬ me > 0 := not_lt.mpr hme
    simp [NN.init, check_max_epochs, h, Bind.bind, Except.bind]
  · intro hme
    by_cases h1 : opt ∈ optimizer_implemented <;>
    by_cases h2 : (0 : ℤ) < bs <;>
    by_cases h3 : mom ≥ 0 <;>
    by_cases h4 : reg ≥ 0 <;>
    by_cases h5 : met ∈ metric_functions ∨ met = "" <;>
    by_cases h6 : lo ∈ loss_functions <;>
    simp [NN.init, check_max_epochs, check_optimizer, check_batch_size_eq,
      check_momentum, check_regularization, check_metric, check_loss,
      hme, h1, h2, h3, h4, h5, h6, Bind.bind, Except.bind, ge_iff_le]
  · intro nn hnn
    rw [NN.init] at hnn
    simp only [check_max_epochs, check_optimizer, check_batch_size_eq,
      check_momentum, check_regularization, check_metric, check_loss,
      Bind.bind] at hnn
    split_ifs at hnn <;>
      simp only [Except.bind] at hnn <;>
      first
        | (cases hnn; exact ⟨rfl, rfl⟩)
        | cases hnn

/-- Witness for C8: `maxEpochs = 0` fails at once; `maxEpochs = 3` with
valid remaining parameters constructs a layerless network. -/
theorem C8_max_epochs_check_witness :
    (NN.init Unit 0 "SGD" "euclidean_loss" "" 0 0 1 = Except.error ()) ∧
    (∃ nn, NN.init Unit 3 "batch" "euclidean_loss" "" 0 0 2 =
      Except.ok nn) := by
  constructor
  · exact (C8_max_epochs_check Unit 0 "SGD" "euclidean_loss" "" 0 0 1).1
      (le_refl 0)
  · exact ((C8_max_epochs_check Unit 3 "batch" "euclidean_loss" "" 0 0
      2).2.1 (by decide)).mpr (by decide)

end NNSim
